import Mathlib

/-!
Verification of the queue-to-medallion analytics pipeline: a shallow
embedding of the Firebase-format value parser and raw persistence
(src/transformer.py), the multi-statement SQL executor and table-count
accounting (src/loader.py), the polling orchestrator
(deliverable2_pipeline.py) and the SQS consumer clamp (src/consumer.py),
together with theorems settling the specification claims about them.
-/

namespace Pipeline

/-- Exact decimal number num / 10 ^ scale.  Python floats are modelled by
the decimal literal they were parsed from: every literal in scope is
exactly representable in an IEEE double context where no arithmetic is
ever performed on the parsed values. -/
structure Dec where
  num : Int
  scale : Nat
deriving DecidableEq, Repr

/-- Tagged value tree produced by the Firebase-format parser. -/
inductive Value where
  | vnull : Value
  | vint : Int → Value
  | vfloat : Dec → Value
  | vstr : String → Value
  | vlist : List Value → Value
  | vmap : List (String × Value) → Value

/-- Model of the Python str.strip method on a list of characters. -/
def pyStrip (cs : List Char) : List Char :=
  ((cs.dropWhile Char.isWhitespace).reverse.dropWhile Char.isWhitespace).reverse

/-- Numeric value of a list of decimal digit characters. -/
def digitsToNat (cs : List Char) : Nat :=
  cs.foldl (fun a c => 10 * a + (c.toNat - 48)) 0

/-- Model of the Python int conversion on an already-stripped token: an
optional sign followed by one or more decimal digits.  Underscore digit
separators are not modelled. -/
def pyInt (cs : List Char) : Option Int :=
  match cs with
  | '+' :: rest =>
      if rest ≠ [] ∧ rest.all Char.isDigit then some (digitsToNat rest) else none
  | '-' :: rest =>
      if rest ≠ [] ∧ rest.all Char.isDigit then some (-(digitsToNat rest : Int)) else none
  | _ =>
      if cs ≠ [] ∧ cs.all Char.isDigit then some (digitsToNat cs) else none

/-- Core of the Python float conversion on an unsigned token, restricted
to plain decimal literals: an optional integer part, an optional single
point, an optional fractional part, with at least one digit.  Exponents,
inf, nan and underscore separators are not modelled. -/
def pyFloatCore (cs : List Char) : Option Dec :=
  if '.' ∈ cs then
    let ip := cs.takeWhile (fun c => c ≠ '.')
    let fp := (cs.dropWhile (fun c => c ≠ '.')).tail
    if ip.all Char.isDigit ∧ fp.all Char.isDigit ∧ (ip ≠ [] ∨ fp ≠ []) then
      some ⟨digitsToNat (ip ++ fp), fp.length⟩
    else none
  else
    if cs ≠ [] ∧ cs.all Char.isDigit then some ⟨digitsToNat cs, 0⟩ else none

/-- Model of the Python float conversion on an already-stripped token. -/
def pyFloat (cs : List Char) : Option Dec :=
  match cs with
  | '+' :: rest => pyFloatCore rest
  | '-' :: rest => (pyFloatCore rest).map (fun d => ⟨-d.num, d.scale⟩)
  | _ => pyFloatCore cs

/-- Scalar coercion of the value parser (parse_value in transformer.py):
the sentinels null and (not set) map to vnull; a token containing a
point is tried as a float, any other token as an integer; on conversion
failure the stripped token is kept as a string. -/
def parse_value (val : List Char) : Value :=
  let v := pyStrip val
  if v = "null".data ∨ v = "(not set)".data then Value.vnull
  else if '.' ∈ v then
    match pyFloat v with
    | some q => Value.vfloat q
    | none => Value.vstr (String.mk v)
  else
    match pyInt v with
    | some n => Value.vint n
    | none => Value.vstr (String.mk v)

/-- Python dict assignment on an insertion-ordered association list: an
existing key keeps its position and receives the new value, a new key is
appended at the end. -/
def dictInsert (k : String) (v : Value) : List (String × Value) → List (String × Value)
  | [] => [(k, v)]
  | (k0, v0) :: rest => if k0 = k then (k, v) :: rest else (k0, v0) :: dictInsert k v rest

/-- Scanner state of parse_object: bracket depth, key-mode flag, the two
accumulators and the raw key-value pairs emitted so far. -/
structure ObjSt where
  depth : Int
  inKey : Bool
  key : List Char
  val : List Char
  pairs : List (List Char × List Char)

/-- One character step of the parse_object scan in transformer.py. -/
def objStep (st : ObjSt) (c : Char) : ObjSt :=
  if c = '[' ∨ c = '{' then
    { st with depth := st.depth + 1, val := if st.inKey then st.val else st.val ++ [c] }
  else if c = ']' ∨ c = '}' then
    { st with depth := st.depth - 1, val := if st.inKey then st.val else st.val ++ [c] }
  else if c = '=' ∧ st.depth = 0 ∧ st.inKey then
    { st with inKey := false }
  else if c = ',' ∧ st.depth = 0 then
    { depth := st.depth, inKey := true, key := [], val := [],
      pairs := st.pairs ++ if st.key ≠ [] then [(st.key, st.val)] else [] }
  else if st.inKey then { st with key := st.key ++ [c] }
  else { st with val := st.val ++ [c] }

/-- Raw key-value pairs produced by one parse_object scan, including the
final flush of a pending pair with a nonempty raw key. -/
def scanObject (s : List Char) : List (List Char × List Char) :=
  let st := s.foldl objStep { depth := 0, inKey := true, key := [], val := [], pairs := [] }
  st.pairs ++ if st.key ≠ [] then [(st.key, st.val)] else []

/-- Scanner state of parse_array: bracket depth, inside-object flag, the
current object accumulator and the object substrings emitted so far. -/
structure ArrSt where
  depth : Int
  inObj : Bool
  cur : List Char
  objs : List (List Char)

/-- One character step of the parse_array scan in transformer.py: only
brace-delimited objects are collected; characters outside an object are
discarded. -/
def arrStep (st : ArrSt) (c : Char) : ArrSt :=
  if c = '[' ∧ ¬st.inObj then { st with depth := st.depth + 1 }
  else if c = ']' ∧ ¬st.inObj then { st with depth := st.depth - 1 }
  else if c = '{' then
    { st with
        cur := (if st.inObj then st.cur ++ [c] else st.cur), inObj := true,
        depth := st.depth + 1 }
  else if c = '}' then
    if st.depth - 1 = 1 then
      { depth := st.depth - 1, inObj := false, cur := [],
        objs := st.objs ++ if st.cur ≠ [] then [st.cur] else [] }
    else { st with depth := st.depth - 1, cur := st.cur ++ [c] }
  else if st.inObj then { st with cur := st.cur ++ [c] }
  else st

/-- Raw object substrings produced by one parse_array scan; an accumulator
still pending at the end of the input is discarded, as in the source. -/
def scanArray (s : List Char) : List (List Char) :=
  (s.foldl arrStep { depth := 0, inObj := false, cur := [], objs := [] }).objs

/-- The parse_object body: scan the input into raw pairs, then bind each
stripped key to the recursively parsed value in dict insertion order. -/
def parse_object_with (pn : List Char → Option Value) (s : List Char) :
    Option (List (String × Value)) :=
  (scanObject s).foldlM
    (fun res p => (pn p.2).map (fun v => dictInsert (String.mk (pyStrip p.1)) v res)) []

/-- The parse_array body: every collected object substring is parsed as
an object; scalar elements were already discarded by the scan. -/
def parse_array_with (po : List Char → Option (List (String × Value))) (s : List Char) :
    Option (List Value) :=
  ((scanArray s).mapM po).map (fun l => l.map Value.vmap)

/-- The parse_nested dispatcher of transformer.py.  The fuel argument
models the CPython recursion limit: exhausted fuel corresponds to the
RecursionError that is the only exception the parser can raise. -/
def parse_nested : Nat → List Char → Option Value
  | 0, _ => none
  | fuel + 1, s =>
    let t := pyStrip s
    if t.head? = some '[' then
      (parse_array_with (parse_object_with (parse_nested fuel)) t).map Value.vlist
    else if t.head? = some '{' then
      (parse_object_with (parse_nested fuel)
        (if t.getLast? = some '}' then (t.drop 1).dropLast else t.drop 1)).map Value.vmap
    else some (parse_value t)

/-- Recursion budget modelling the default CPython recursion limit. -/
def PY_RECURSION_FUEL : Nat := 1000

/-- Entry point BronzeTransformer._parse_items_firebase_format applied as
a pure function.  A none result models an escaped RecursionError; every
other exception is impossible in the source. -/
def parse_items_firebase_format (text : String) : Option Value :=
  parse_nested PY_RECURSION_FUEL text.data

/-- Structural split of a character list at newline characters, the
Python str.split with a newline separator. -/
def splitLinesGo : List Char → List Char → List (List Char)
  | [], cur => [cur.reverse]
  | c :: rest, cur =>
      if c = '\n' then cur.reverse :: splitLinesGo rest []
      else splitLinesGo rest (c :: cur)

/-- Lines of a script, the Python str.split on newlines. -/
def splitLines (cs : List Char) : List (List Char) := splitLinesGo cs []

/-- True when the line starts, after stripping, with two dashes. -/
def isCommentLine (l : List Char) : Bool :=
  match pyStrip l with
  | '-' :: '-' :: _ => true
  | _ => false

/-- Lines surviving the comment stripping of execute_statements: a line
whose stripped form starts with two dashes is removed.  Joining on
newlines and re-splitting, as the source does, reproduces this list. -/
def cleanedLines (sql : String) : List (List Char) :=
  (splitLines sql.data).filter (fun l => ¬ isCommentLine l)

/-- True when the line ends, after stripping, with a semicolon. -/
def endsSemi (l : List Char) : Bool :=
  (pyStrip l).getLast? = some ';'

/-- Every trailing semicolon removed, the Python str.rstrip with a
semicolon argument. -/
def rstripSemi (cs : List Char) : List Char :=
  (cs.reverse.dropWhile (fun c => c = ';')).reverse

/-- Newline join of the accumulated lines followed by a strip, as applied
to each pending statement of execute_statements. -/
def joinedStripped (cur : List (List Char)) : List Char :=
  pyStrip (List.intercalate ['\n'] cur.reverse)

/-- Statement-splitting loop of execute_statements: lines accumulate until
one ends, after stripping, with a semicolon; the joined text is stripped,
discarded when empty or a lone semicolon, otherwise emitted with its
trailing semicolons removed; a fragment still pending at the end becomes
a final statement. -/
def splitGo : List (List Char) → List (List Char) → List (List Char)
  | [], cur =>
      let full := joinedStripped cur
      if full ≠ [] then [full] else []
  | l :: rest, cur =>
      if endsSemi l then
        let full := joinedStripped (l :: cur)
        (if full ≠ [] ∧ full ≠ [';'] then [pyStrip (rstripSemi full)] else []) ++
          splitGo rest []
      else splitGo rest (l :: cur)

/-- Statement list produced by execute_statements for a script. -/
def splitStatements (sql : String) : List String :=
  (splitGo (cleanedLines sql) []).map String.mk

/-- Execution loop of execute_statements over the split statements: empty
entries are skipped but still advance the reported index; each successful
statement commits on the shared connection; the first failing statement
stops execution and reports its 1-based index together with a
500-character excerpt of its text. -/
def execGo (execOk : String → Bool) : List String → Nat → List String × Option (Nat × String)
  | [], _ => ([], none)
  | st :: rest, i =>
      if st = "" then execGo execOk rest (i + 1)
      else if execOk st then
        let p := execGo execOk rest (i + 1)
        (st :: p.1, p.2)
      else ([], some (i, String.mk (st.data.take 500)))

/-- DuckDBLoader.execute_statements: comment stripping, splitting and
sequential execution.  The store connection is the execOk oracle; the
first component lists the statements whose effects have committed, the
second reports the failure, if any. -/
def execute_statements (execOk : String → Bool) (sql : String) :
    List String × Option (Nat × String) :=
  execGo execOk (splitStatements sql) 1

/-- DuckDBLoader.table_count: the analytical store is modelled as a
partial assignment of row counts to table names, with none covering both
a missing table and any query error; the bare except of the source maps
every such case to zero. -/
def table_count (store : String → Option Nat) (t : String) : Nat :=
  match store t with
  | some n => n
  | none => 0

/-- Stats dictionary returned by transform_to_silver. -/
structure SilverStats where
  events_inserted : Int
  items_inserted : Int
  total_events : Nat
  total_items : Nat
deriving DecidableEq, Repr

/-- Delta accounting of transform_to_silver: counts are bracketed around
the model runs, pre being the store before them and post after; with no
bronze files the function returns zeros without touching the store. -/
def transform_to_silver (bronzeFiles : Nat) (pre post : String → Option Nat) : SilverStats :=
  if bronzeFiles = 0 then ⟨0, 0, 0, 0⟩
  else
    ⟨(table_count post "silver_events" : Int) - (table_count pre "silver_events" : Int),
     (table_count post "silver_items" : Int) - (table_count pre "silver_items" : Int),
     table_count post "silver_events",
     table_count post "silver_items"⟩

/-- Stats dictionary returned by transform_to_gold. -/
structure GoldStats where
  fact_events_inserted : Int
  fact_items_inserted : Int
  dim_items_inserted : Int
  dim_users_inserted : Int
deriving DecidableEq, Repr

/-- Delta accounting of transform_to_gold. -/
def transform_to_gold (pre post : String → Option Nat) : GoldStats :=
  ⟨(table_count post "fact_events" : Int) - (table_count pre "fact_events" : Int),
   (table_count post "fact_event_items" : Int) - (table_count pre "fact_event_items" : Int),
   (table_count post "dim_items" : Int) - (table_count pre "dim_items" : Int),
   (table_count post "dim_users" : Int) - (table_count pre "dim_users" : Int)⟩

/-- Configured batch size from config.py; the source comment itself notes
that the SQS maximum is 10. -/
def MAX_MESSAGES_PER_BATCH : Nat := 20

/-- Python falsy-or defaulting of the max_messages argument: both an
absent argument and an explicit zero fall back to the configured
MAX_MESSAGES_PER_BATCH. -/
def effectiveMaxMessages (maxMessages : Option Nat) : Nat :=
  match maxMessages with
  | none => MAX_MESSAGES_PER_BATCH
  | some 0 => MAX_MESSAGES_PER_BATCH
  | some k => k

/-- The MaxNumberOfMessages value sent in the queue request by
SQSConsumer.receive_messages. -/
def requestedMaxMessages (maxMessages : Option Nat) : Nat :=
  min (effectiveMaxMessages maxMessages) 10

/-- SQSConsumer.receive_messages: the queue client is a function from the
requested maximum to the delivered raw messages; every raw message yields
exactly one parsed entry, since a JSON decode failure only switches the
entry to its fallback shape. -/
def receive_messages {α β : Type} (sqs : Nat → List α) (parse1 : α → β)
    (maxMessages : Option Nat) : List β :=
  (sqs (requestedMaxMessages maxMessages)).map parse1

/-- Normalized items field of a message body: either still raw text or a
structured value tree. -/
inductive ItemsField where
  | text : String → ItemsField
  | value : Value → ItemsField

/-- Items normalization inside save_raw_message: the error flag starts
false; a string field is parsed, a caught parser exception sets the flag
and keeps the original text; a non-string field passes through. -/
def normalize_items : ItemsField → ItemsField × Bool
  | ItemsField.text s =>
      match parse_items_firebase_format s with
      | some v => (ItemsField.value v, false)
      | none => (ItemsField.text s, true)
  | ItemsField.value v => (ItemsField.value v, false)

/-- The message record as mutated by save_raw_message. -/
structure SavedRecord where
  items : ItemsField
  errors_parsing_items : Bool

/-- BronzeTransformer.save_raw_message on one message: normalization is
followed by the file write, whose failure is caught and reported as a
missing path; the mutated record exists in either case. -/
def save_raw_message (writeOk : Bool) (items : ItemsField) : SavedRecord × Option String :=
  let n := normalize_items items
  (⟨n.1, n.2⟩, if writeOk then some "bronze-file" else none)

/-- Terminal layer selector of the orchestrator. -/
inductive Layer where
  | bronze
  | silver
  | gold
deriving DecidableEq, Repr

/-- Observable operations of one process_batch call, in execution order. -/
inductive Eff where
  | bronzeWrite : Nat → Eff
  | silverRun : Eff
  | silverExport : Eff
  | goldRun : Eff
  | goldExport : Eff
  | deleteMsg : Nat → Eff
deriving DecidableEq, Repr

/-- Environment of one polling cycle: the received batch, as receipt
handles, and the outcome of every external operation the cycle may
attempt.  A stage effect is recorded only when the stage completes;
partial mutations of a stage that raises midway are not modelled. -/
structure PipelineEnv where
  messages : List Nat
  writeOk : Nat → Bool
  silverOk : Bool
  goldOk : Bool
  saveParquet : Bool
  exportSilverOk : Bool
  exportGoldOk : Bool
  silverStats : Int × Int
  goldStats : Int × Int

/-- Stats dictionary built by process_batch. -/
structure Stats where
  messages_received : Nat
  bronze_saved : Nat
  silver_events : Int
  silver_items : Int
  gold_events : Int
  gold_items : Int
  errors : Nat
deriving DecidableEq, Repr

/-- The all-zero stats record process_batch starts from. -/
def zeroStats : Stats := ⟨0, 0, 0, 0, 0, 0, 0⟩

/-- Bronze effects of save_batch: one write per message whose file write
succeeds; a failed write is caught inside save_raw_message or save_batch,
logged and skipped. -/
def bronzeEffects (env : PipelineEnv) : List Eff :=
  env.messages.filterMap (fun h => if env.writeOk h then some (Eff.bronzeWrite h) else none)

/-- Snapshot export results of DuckDBLoader.export_to_parquet. -/
inductive ExportResult where
  | partitionedDir
  | singleFile
  | raised
deriving DecidableEq, Repr

/-- DuckDBLoader.export_to_parquet: with a partition column the
partitioned COPY is tried first and its failure is caught, logged and
retried as a single unpartitioned file; the single-file COPY itself is
never guarded, so its failure raises. -/
def export_to_parquet (partitionCol : Bool) (partitionedOk fileOk : Bool) : ExportResult :=
  if partitionCol then
    if partitionedOk then ExportResult.partitionedDir
    else if fileOk then ExportResult.singleFile
    else ExportResult.raised
  else if fileOk then ExportResult.singleFile
  else ExportResult.raised

/-- One process_batch call from deliverable2_pipeline.py: the trace of
observable operations together with either the stats record or the
propagated batch exception.  The source increments its errors counter
before re-raising, but the raised exception discards the stats record,
which the error result reflects. -/
def processBatch (env : PipelineEnv) (target : Layer) (deleteAfter : Bool) :
    List Eff × Except Unit Stats :=
  if env.messages = [] then ([], Except.ok zeroStats)
  else
    let s1 : Stats :=
      { zeroStats with
          messages_received := env.messages.length,
          bronze_saved := (env.messages.filter env.writeOk).length }
    if target = Layer.bronze then (bronzeEffects env, Except.ok s1)
    else if env.silverOk = false then (bronzeEffects env, Except.error ())
    else
      let s2 : Stats :=
        { s1 with
            silver_events := env.silverStats.1, silver_items := env.silverStats.2 }
      let t2 := bronzeEffects env ++ [Eff.silverRun]
      if env.saveParquet = true ∧ env.exportSilverOk = false then (t2, Except.error ())
      else
        let t3 := t2 ++ if env.saveParquet then [Eff.silverExport] else []
        if target = Layer.silver then (t3, Except.ok s2)
        else if env.goldOk = false then (t3, Except.error ())
        else
          let s3 : Stats :=
            { s2 with
                gold_events := env.goldStats.1, gold_items := env.goldStats.2 }
          let t4 := t3 ++ [Eff.goldRun]
          if env.saveParquet = true ∧ env.exportGoldOk = false then (t4, Except.error ())
          else
            let t5 := t4 ++ if env.saveParquet then [Eff.goldExport] else []
            (t5 ++ if deleteAfter then env.messages.map Eff.deleteMsg else [], Except.ok s3)

/-- The call run_pipeline makes every cycle: process_batch with the
delete_after_processing parameter left at its default false. -/
def run_pipeline_batch (env : PipelineEnv) (target : Layer) : List Eff × Except Unit Stats :=
  processBatch env target false

/-- Batch environment with every external operation succeeding except the
gold snapshot export. -/
def envExportFail : PipelineEnv :=
  ⟨[0], fun _ => true, true, true, true, true, false, (0, 0), (0, 0)⟩

/-- Batch environment of two messages in which the file write of message
0 fails while everything else succeeds; snapshot export is disabled. -/
def envWriteFail : PipelineEnv :=
  ⟨[0, 1], fun h => h == 1, true, true, false, true, true, (0, 0), (0, 0)⟩

/-- Fully succeeding batch environment of one message with snapshot
export disabled. -/
def envAllOk : PipelineEnv :=
  ⟨[0], fun _ => true, true, true, false, true, true, (0, 0), (0, 0)⟩

/-- Fully succeeding batch environment of two messages with snapshot
export enabled. -/
def envAllOkExport : PipelineEnv :=
  ⟨[3, 7], fun _ => true, true, true, true, true, true, (2, 5), (4, 6)⟩

/-- Environment of an empty batch. -/
def envEmpty : PipelineEnv :=
  ⟨[], fun _ => true, true, true, true, true, true, (0, 0), (0, 0)⟩

/-- Two-statement script with an interleaved comment line, used to
exercise the executor. -/
def wSql : String := "CREATE TABLE t(x INT);\n-- fill\nINSERT INTO t VALUES (1);"

/-- Store connection that rejects exactly the insert statement of wSql. -/
def wExecOk : String → Bool := fun st => st != "INSERT INTO t VALUES (1)"

/-- C1 counterexample: on the specified input the parser maps key b to
the empty list, not to the list of the integers 1, 2, 3 — the array
scanner collects only brace-delimited objects, so scalar array elements
are dropped. -/
theorem C1_parser_example_counterexample :
    parse_items_firebase_format "[{a=1, b=[1,2,3], c={x=null, y=2.5}}]" =
      some (Value.vlist [Value.vmap
        [("a", Value.vint 1), ("b", Value.vlist []),
         ("c", Value.vmap [("x", Value.vnull), ("y", Value.vfloat ⟨25, 1⟩)])]]) ∧
    Value.vlist [] ≠ Value.vlist [Value.vint 1, Value.vint 2, Value.vint 3] :=
  ⟨rfl, by simp⟩

/-- C1 (amended): parsing the input yields a one-element list whose map
binds a to the integer 1, b to the empty list (the scalar elements of a
nested array are discarded by the object-only array scanner) and c to
the map of x to null and y to the float 2.5. -/
theorem C1_parser_example :
    parse_items_firebase_format "[{a=1, b=[1,2,3], c={x=null, y=2.5}}]" =
      some (Value.vlist [Value.vmap
        [("a", Value.vint 1), ("b", Value.vlist []),
         ("c", Value.vmap [("x", Value.vnull), ("y", Value.vfloat ⟨25, 1⟩)])]]) := rfl

/-- C5 counterexample: the token a.b contains a point but stays a string,
because the float conversion fails and the exception handler returns the
token unchanged. -/
theorem C5_scalar_coercion_counterexample :
    '.' ∈ "a.b".data ∧ parse_value "a.b".data = Value.vstr "a.b" ∧
    ¬ ∃ d : Dec, parse_value "a.b".data = Value.vfloat d := by
  refine ⟨by decide, rfl, ?_⟩
  rintro ⟨d, hd⟩
  have h : Value.vstr "a.b" = Value.vfloat d := hd
  exact Value.noConfusion h

/-- C5 (amended): after stripping, the sentinels null and (not set) map
to null; a token containing a point becomes a float exactly when the
float conversion accepts it; a token without a point becomes an integer
exactly when the integer conversion accepts it; every other token stays
a string. -/
theorem C5_scalar_coercion (cs : List Char) :
    (parse_value cs = Value.vnull ↔
      (pyStrip cs = "null".data ∨ pyStrip cs = "(not set)".data)) ∧
    (∀ d, parse_value cs = Value.vfloat d ↔
      ¬(pyStrip cs = "null".data ∨ pyStrip cs = "(not set)".data) ∧
        '.' ∈ pyStrip cs ∧ pyFloat (pyStrip cs) = some d) ∧
    (∀ n, parse_value cs = Value.vint n ↔
      ¬(pyStrip cs = "null".data ∨ pyStrip cs = "(not set)".data) ∧
        '.' ∉ pyStrip cs ∧ pyInt (pyStrip cs) = some n) ∧
    (parse_value cs = Value.vstr (String.mk (pyStrip cs)) ↔
      ¬(pyStrip cs = "null".data ∨ pyStrip cs = "(not set)".data) ∧
        (('.' ∈ pyStrip cs ∧ pyFloat (pyStrip cs) = none) ∨
         ('.' ∉ pyStrip cs ∧ pyInt (pyStrip cs) = none))) := by
  unfold parse_value
  by_cases hs : pyStrip cs = "null".data ∨ pyStrip cs = "(not set)".data
  · simp [hs]
  · by_cases hd : '.' ∈ pyStrip cs
    · rcases hf : pyFloat (pyStrip cs) with _ | d0 <;> simp [hs, hd, hf]
    · rcases hi : pyInt (pyStrip cs) with _ | n0 <;> simp [hs, hd, hi]

/-- C5 witness: the coercion theorem applied to concrete tokens. -/
theorem C5_scalar_coercion_witness :
    parse_value "2.5".data = Value.vfloat ⟨25, 1⟩ ∧ parse_value " 7 ".data = Value.vint 7 :=
  ⟨((C5_scalar_coercion "2.5".data).2.1 ⟨25, 1⟩).mpr (by refine ⟨by decide, by decide, ?_⟩; rfl),
   ((C5_scalar_coercion " 7 ".data).2.2.1 7).mpr (by refine ⟨by decide, by decide, ?_⟩; rfl)⟩

/-- C7 counterexample: the malformed input does not set the error flag
and does not retain the original text; the total parser turns it into a
map and the flag stays false. -/
theorem C7_parse_flag_counterexample :
    normalize_items (ItemsField.text "\x7boops") =
      (ItemsField.value (Value.vmap [("oops", Value.vstr "")]), false) ∧
    (∀ s, ItemsField.value (Value.vmap [("oops", Value.vstr "")]) ≠ ItemsField.text s) :=
  ⟨rfl, fun _ h => ItemsField.noConfusion h⟩

/-- C7 (amended): parsing never raises past the save_raw_message
boundary and the record is persisted whenever the file write succeeds,
independently of the parse outcome; however the error flag is set, and
the original text retained verbatim, only when the parser itself raises
(modelled as recursion-limit exhaustion); any merely malformed input that
the total scanner handles is persisted with the flag false and the items
field replaced by the parser output. -/
theorem C7_save_raw_message (s : String) (writeOk : Bool) :
    (∀ v, parse_items_firebase_format s = some v →
      save_raw_message writeOk (ItemsField.text s) =
        (⟨ItemsField.value v, false⟩, if writeOk then some "bronze-file" else none)) ∧
    (parse_items_firebase_format s = none →
      save_raw_message writeOk (ItemsField.text s) =
        (⟨ItemsField.text s, true⟩, if writeOk then some "bronze-file" else none)) ∧
    (save_raw_message writeOk (ItemsField.text s)).1.errors_parsing_items =
      (parse_items_firebase_format s).isNone := by
  rcases h : parse_items_firebase_format s with _ | v <;>
    simp [save_raw_message, normalize_items, h]

/-- C7 witness: the boundary theorem applied to a concrete malformed
input with a succeeding file write. -/
theorem C7_save_raw_message_witness :
    save_raw_message true (ItemsField.text "\x7boops") =
      (⟨ItemsField.value (Value.vmap [("oops", Value.vstr "")]), false⟩, some "bronze-file") :=
  (C7_save_raw_message "\x7boops" true).1 (Value.vmap [("oops", Value.vstr "")]) rfl

/-- Characterization of the execution loop started at index i: either
every nonempty statement ran and committed in order, or the first failing
statement is reported with its absolute position and excerpt while
everything before it has committed and nothing after it ever ran. -/
theorem execGo_spec (execOk : String → Bool) (l : List String) (i : Nat) :
    ((execGo execOk l i).2 = none →
      (execGo execOk l i).1 = l.filter (fun st => st ≠ "") ∧
      ∀ st ∈ l, st ≠ "" → execOk st = true) ∧
    (∀ k ex, (execGo execOk l i).2 = some (k, ex) →
      ∃ pre bad post, l = pre ++ bad :: post ∧ i + pre.length = k ∧ bad ≠ "" ∧
        execOk bad = false ∧ ex = String.mk (bad.data.take 500) ∧
        (execGo execOk l i).1 = pre.filter (fun st => st ≠ "") ∧
        ∀ st ∈ pre, st ≠ "" → execOk st = true) := by
  induction l generalizing i with
  | nil => simp [execGo]
  | cons st rest ih =>
    by_cases h0 : st = ""
    · subst h0
      have hgo : execGo execOk ("" :: rest) i = execGo execOk rest (i + 1) := by
        simp [execGo]
      have hfc : ("" :: rest).filter (fun s => s ≠ "") = rest.filter (fun s => s ≠ "") := by
        simp
      rw [hgo, hfc]
      constructor
      · intro hn
        refine ⟨((ih (i + 1)).1 hn).1, ?_⟩
        intro s hs hne
        rcases List.mem_cons.mp hs with h | h
        · exact absurd h hne
        · exact ((ih (i + 1)).1 hn).2 s h hne
      · intro k ex hk
        obtain ⟨pre, bad, post, hl, hik, hb, hx, he, htr, hpre⟩ := (ih (i + 1)).2 k ex hk
        refine ⟨"" :: pre, bad, post, by simp [hl], ?_, hb, hx, he, ?_, ?_⟩
        · simp only [List.length_cons]
          omega
        · rw [htr]
          simp
        · intro s hs hne
          rcases List.mem_cons.mp hs with h | h
          · exact absurd h hne
          · exact hpre s h hne
    · by_cases h1 : execOk st = true
      · have hgo : execGo execOk (st :: rest) i =
            (st :: (execGo execOk rest (i + 1)).1, (execGo execOk rest (i + 1)).2) := by
          simp [execGo, h0, h1]
        have hfc : ∀ l0 : List String,
            (st :: l0).filter (fun s => s ≠ "") = st :: l0.filter (fun s => s ≠ "") := by
          intro l0
          simp [h0]
        rw [hgo]
        constructor
        · intro hn
          refine ⟨?_, ?_⟩
          · rw [hfc, ((ih (i + 1)).1 hn).1]
          · intro s hs hne
            rcases List.mem_cons.mp hs with h | h
            · exact h ▸ h1
            · exact ((ih (i + 1)).1 hn).2 s h hne
        · intro k ex hk
          obtain ⟨pre, bad, post, hl, hik, hb, hx, he, htr, hpre⟩ := (ih (i + 1)).2 k ex hk
          refine ⟨st :: pre, bad, post, by simp [hl], ?_, hb, hx, he, ?_, ?_⟩
          · simp only [List.length_cons]
            omega
          · rw [hfc, htr]
          · intro s hs hne
            rcases List.mem_cons.mp hs with h | h
            · exact h ▸ h1
            · exact hpre s h hne
      · have h1f : execOk st = false := by
          cases hob : execOk st
          · rfl
          · exact absurd hob h1
        have hgo : execGo execOk (st :: rest) i =
            ([], some (i, String.mk (st.data.take 500))) := by
          simp [execGo, h0, h1f]
        rw [hgo]
        constructor
        · intro hn
          cases hn
        · intro k ex hk
          have hk2 : i = k ∧ String.mk (st.data.take 500) = ex := by
            simpa using hk
          refine ⟨[], st, rest, rfl, by simpa using hk2.1, h0, h1f, hk2.2.symm, rfl, ?_⟩
          intro s hs
          cases hs

/-- C6: the split statements of a script execute strictly in source order
on the single store connection; when no statement fails every nonempty
statement has committed in order, and when one fails it is reported with
its 1-based index in the split list and a 500-character excerpt, every
earlier statement has already committed its effect, and no later
statement ever executes.  Empty split entries, which the source skips but
still counts, are made explicit by the filter. -/
theorem C6_execute_statements_order (execOk : String → Bool) (sql : String) :
    ((execute_statements execOk sql).2 = none →
      (execute_statements execOk sql).1 =
        (splitStatements sql).filter (fun st => st ≠ "") ∧
      ∀ st ∈ splitStatements sql, st ≠ "" → execOk st = true) ∧
    (∀ k ex, (execute_statements execOk sql).2 = some (k, ex) →
      ∃ pre bad post, splitStatements sql = pre ++ bad :: post ∧ pre.length + 1 = k ∧
        bad ≠ "" ∧ execOk bad = false ∧ ex = String.mk (bad.data.take 500) ∧
        (execute_statements execOk sql).1 = pre.filter (fun st => st ≠ "") ∧
        ∀ st ∈ pre, st ≠ "" → execOk st = true) := by
  have h := execGo_spec execOk (splitStatements sql) 1
  constructor
  · exact h.1
  · intro k ex hk
    obtain ⟨pre, bad, post, hl, hik, hb, hx, he, htr, hpre⟩ := h.2 k ex hk
    exact ⟨pre, bad, post, hl, by omega, hb, hx, he, htr, hpre⟩

/-- C6 witness: the executor theorem applied to the two-statement script
with an interleaved comment and a connection failing on statement 2. -/
theorem C6_execute_statements_order_witness :
    ∃ pre bad post, splitStatements wSql = pre ++ bad :: post ∧ pre.length + 1 = 2 ∧
      bad ≠ "" ∧ wExecOk bad = false ∧
      "INSERT INTO t VALUES (1)" = String.mk (bad.data.take 500) ∧
      (execute_statements wExecOk wSql).1 = pre.filter (fun st => st ≠ "") ∧
      ∀ st ∈ pre, st ≠ "" → wExecOk st = true :=
  (C6_execute_statements_order wExecOk wSql).2 2 "INSERT INTO t VALUES (1)" rfl

/-- Membership in the bronze effects: exactly the successful writes. -/
theorem mem_bronzeEffects (env : PipelineEnv) (e : Eff) :
    e ∈ bronzeEffects env ↔
      ∃ h ∈ env.messages, env.writeOk h = true ∧ e = Eff.bronzeWrite h := by
  simp only [bronzeEffects, List.mem_filterMap]
  constructor
  · rintro ⟨a, ha, hfa⟩
    by_cases hw : env.writeOk a
    · rw [if_pos hw] at hfa
      exact ⟨a, ha, hw, (Option.some.injEq _ _).mp hfa |>.symm⟩
    · rw [if_neg hw] at hfa
      cases hfa
  · rintro ⟨a, ha, hw, rfl⟩
    exact ⟨a, ha, by rw [if_pos hw]⟩

/-- A deletion effect never originates from the bronze stage. -/
theorem deleteMsg_not_mem_bronzeEffects (env : PipelineEnv) (h : Nat) :
    Eff.deleteMsg h ∉ bronzeEffects env := by
  rw [mem_bronzeEffects]
  rintro ⟨a, -, -, hcontra⟩
  cases hcontra

/-- C8: an empty received batch returns the all-zero stats record and
performs no operation at all, leaving the raw store and the analytical
store untouched. -/
theorem C8_empty_batch (env : PipelineEnv) (target : Layer) (deleteAfter : Bool)
    (h : env.messages = []) :
    processBatch env target deleteAfter = ([], Except.ok ⟨0, 0, 0, 0, 0, 0, 0⟩) := by
  simp [processBatch, h, zeroStats]

/-- C8 witness: the empty-batch theorem at a concrete environment. -/
theorem C8_empty_batch_witness :
    processBatch envEmpty Layer.gold true = ([], Except.ok ⟨0, 0, 0, 0, 0, 0, 0⟩) :=
  C8_empty_batch envEmpty Layer.gold true rfl

/-- C3 counterexample: in a two-message batch whose first file write
fails, the batch is not aborted: the silver stage still runs and the
cycle reports success with one bronze write out of two received. -/
theorem C3_partial_bronze_counterexample :
    envWriteFail.writeOk 0 = false ∧ (0 : Nat) ∈ envWriteFail.messages ∧
    processBatch envWriteFail Layer.silver false =
      ([Eff.bronzeWrite 1, Eff.silverRun], Except.ok ⟨2, 1, 0, 0, 0, 0, 0⟩) :=
  ⟨rfl, by decide, rfl⟩

/-- C3 (amended): a raw-persistence failure does not abort the batch:
save_batch catches the per-message failure, skips that message, and the
batch proceeds to the structuring stage with the partial result counted
as success — bronze_saved reports only the successful writes. -/
theorem C3_partial_bronze_proceeds (env : PipelineEnv) (target : Layer) (da : Bool)
    (hm : env.messages ≠ []) (ht : target ≠ Layer.bronze) (hs : env.silverOk = true) :
    Eff.silverRun ∈ (processBatch env target da).1 ∧
    ∀ s, (processBatch env target da).2 = Except.ok s →
      s.bronze_saved = (env.messages.filter env.writeOk).length := by
  by_cases hse : env.saveParquet = true ∧ env.exportSilverOk = false
  · constructor
    · simp [processBatch, hm, ht, hs, hse]
    · intro s hok
      simp [processBatch, hm, ht, hs, hse] at hok
  · by_cases htl : target = Layer.silver
    · constructor
      · simp [processBatch, hm, ht, hs, hse, htl]
      · intro s hok
        simp [processBatch, hm, ht, hs, hse, htl] at hok
        rw [← hok]
    · by_cases hg : env.goldOk = false
      · constructor
        · simp [processBatch, hm, ht, hs, hse, htl, hg]
        · intro s hok
          simp [processBatch, hm, ht, hs, hse, htl, hg] at hok
      · by_cases hge : env.saveParquet = true ∧ env.exportGoldOk = false
        · have hesok : env.exportSilverOk = true := by
            cases hx : env.exportSilverOk
            · exact absurd ⟨hge.1, hx⟩ hse
            · rfl
          constructor
          · simp [processBatch, hm, ht, hs, hse, htl, hg, hge, hesok]
          · intro s hok
            simp [processBatch, hm, ht, hs, hse, htl, hg, hge, hesok] at hok
        · constructor
          · simp [processBatch, hm, ht, hs, hse, htl, hg, hge]
          · intro s hok
            simp [processBatch, hm, ht, hs, hse, htl, hg, hge] at hok
            rw [← hok]

/-- C3 witness: the amended theorem at the concrete environment with a
failing first write. -/
theorem C3_partial_bronze_witness :
    Eff.silverRun ∈ (processBatch envWriteFail Layer.silver true).1 ∧
    ∀ s, (processBatch envWriteFail Layer.silver true).2 = Except.ok s →
      s.bronze_saved = (envWriteFail.messages.filter envWriteFail.writeOk).length :=
  C3_partial_bronze_proceeds envWriteFail Layer.silver true (by decide)
    (fun hcontra => Layer.noConfusion hcontra) rfl

/-- C4 counterexample: with every stage succeeding but the gold snapshot
export failing, the batch aborts with the export exception and the
message of the batch is not deleted even though deletion was requested,
while the committed gold mutation remains. -/
theorem C4_export_failure_counterexample :
    processBatch envExportFail Layer.gold true =
      ([Eff.bronzeWrite 0, Eff.silverRun, Eff.silverExport, Eff.goldRun],
        Except.error ()) ∧
    Eff.deleteMsg 0 ∉ (processBatch envExportFail Layer.gold true).1 ∧
    Eff.goldRun ∈ (processBatch envExportFail Layer.gold true).1 :=
  ⟨rfl, by decide, by decide⟩

/-- C4 (amended): a failure of the partitioned snapshot export is only
logged and falls back to a single unpartitioned file; but a failure of
the unguarded single-file COPY raises out of export_to_parquet, and in
process_batch a raising export aborts the batch and prevents message
deletion; already-committed table mutations are never rolled back — the
completed stage runs remain in the trace. -/
theorem C4_export_failure_behavior (env : PipelineEnv) (da : Bool) (pOk fOk : Bool) :
    (pOk = false → fOk = true → export_to_parquet true pOk fOk = ExportResult.singleFile) ∧
    (∀ pc, export_to_parquet pc pOk fOk = ExportResult.raised ↔
      fOk = false ∧ (pc = false ∨ pOk = false)) ∧
    (env.messages ≠ [] → env.silverOk = true → env.goldOk = true →
      env.saveParquet = true → env.exportSilverOk = true → env.exportGoldOk = false →
      (processBatch env Layer.gold da).2 = Except.error () ∧
      Eff.goldRun ∈ (processBatch env Layer.gold da).1 ∧
      ∀ h, Eff.deleteMsg h ∉ (processBatch env Layer.gold da).1) := by
  refine ⟨?_, ?_, ?_⟩
  · intro hp hf
    subst hp
    subst hf
    rfl
  · intro pc
    cases pc <;> cases pOk <;> cases fOk <;> simp [export_to_parquet]
  · intro hm hs hg hsp hes heg
    simp [processBatch, hm, hs, hg, hsp, hes, heg, mem_bronzeEffects]

/-- C4 witness: the export-failure theorem at the concrete environment
with a failing gold export. -/
theorem C4_export_failure_witness :
    (processBatch envExportFail Layer.gold false).2 = Except.error () ∧
    Eff.goldRun ∈ (processBatch envExportFail Layer.gold false).1 ∧
    ∀ h, Eff.deleteMsg h ∉ (processBatch envExportFail Layer.gold false).1 :=
  (C4_export_failure_behavior envExportFail false false true).2.2 (by decide) rfl rfl rfl
    rfl rfl

/-- A boolean that is not false is true. -/
theorem boolNotFalse (b : Bool) (h : ¬ b = false) : b = true := by
  cases b
  · exact absurd rfl h
  · rfl

/-- Exact shape of a fully successful gold cycle. -/
theorem processBatch_gold_success (env : PipelineEnv) (da : Bool)
    (hm : env.messages ≠ []) (hs : env.silverOk = true) (hg : env.goldOk = true)
    (hx : env.saveParquet = true → env.exportSilverOk = true ∧ env.exportGoldOk = true) :
    processBatch env Layer.gold da =
      (bronzeEffects env ++ [Eff.silverRun] ++
        (if env.saveParquet then [Eff.silverExport] else []) ++ [Eff.goldRun] ++
        (if env.saveParquet then [Eff.goldExport] else []) ++
        (if da then env.messages.map Eff.deleteMsg else []),
       Except.ok ⟨env.messages.length, (env.messages.filter env.writeOk).length,
         env.silverStats.1, env.silverStats.2, env.goldStats.1, env.goldStats.2, 0⟩) := by
  by_cases hsp : env.saveParquet = true
  · obtain ⟨hes, heg⟩ := hx hsp
    simp [processBatch, hm, hs, hg, hsp, hes, heg, zeroStats]
  · have hspf : env.saveParquet = false := by
      cases hb : env.saveParquet
      · rfl
      · exact absurd hb hsp
    simp [processBatch, hm, hs, hg, hspf, zeroStats]

/-- A deletion effect occurs in a cycle exactly when the terminal layer
is gold, deletion was requested, the handle belongs to the batch and
every stage and export of the cycle succeeded. -/
theorem deleteMsg_mem_processBatch (env : PipelineEnv) (target : Layer) (da : Bool)
    (h : Nat) :
    Eff.deleteMsg h ∈ (processBatch env target da).1 ↔
      (target = Layer.gold ∧ da = true ∧ h ∈ env.messages ∧ env.silverOk = true ∧
       env.goldOk = true ∧
       (env.saveParquet = true → env.exportSilverOk = true ∧ env.exportGoldOk = true)) := by
  by_cases hm : env.messages = []
  · simp [processBatch, hm]
  · by_cases ht : target = Layer.bronze
    · subst ht
      simp [processBatch, hm, mem_bronzeEffects]
    · by_cases hsf : env.silverOk = false
      · simp [processBatch, hm, ht, hsf, mem_bronzeEffects]
      · have hs : env.silverOk = true := boolNotFalse _ hsf
        by_cases hse : env.saveParquet = true ∧ env.exportSilverOk = false
        · obtain ⟨hsp, hesf⟩ := hse
          simp [processBatch, hm, ht, hs, hsp, hesf, mem_bronzeEffects]
        · by_cases htl : target = Layer.silver
          · subst htl
            by_cases hsp : env.saveParquet = true
            · have hes : env.exportSilverOk = true := by
                cases hx : env.exportSilverOk
                · exact absurd ⟨hsp, hx⟩ hse
                · rfl
              simp [processBatch, hm, ht, hs, hsp, hes, mem_bronzeEffects]
            · simp [processBatch, hm, ht, hs, hse, hsp, mem_bronzeEffects]
          · by_cases hgf : env.goldOk = false
            · by_cases hsp : env.saveParquet = true
              · have hes : env.exportSilverOk = true := by
                  cases hx : env.exportSilverOk
                  · exact absurd ⟨hsp, hx⟩ hse
                  · rfl
                simp [processBatch, hm, ht, hs, htl, hgf, hsp, hes, mem_bronzeEffects]
              · simp [processBatch, hm, ht, hs, hse, htl, hgf, hsp, mem_bronzeEffects]
            · have hg : env.goldOk = true := boolNotFalse _ hgf
              have htg : target = Layer.gold := by
                cases target
                · exact absurd rfl ht
                · exact absurd rfl htl
                · rfl
              subst htg
              by_cases hge : env.saveParquet = true ∧ env.exportGoldOk = false
              · obtain ⟨hsp, hegf⟩ := hge
                have hes : env.exportSilverOk = true := by
                  cases hx : env.exportSilverOk
                  · exact absurd ⟨hsp, hx⟩ hse
                  · rfl
                simp [processBatch, hm, ht, hs, hse, htl, hg, hsp, hegf, hes,
                  mem_bronzeEffects]
              · by_cases hsp : env.saveParquet = true
                · have hes : env.exportSilverOk = true := by
                    cases hx : env.exportSilverOk
                    · exact absurd ⟨hsp, hx⟩ hse
                    · rfl
                  have heg : env.exportGoldOk = true := by
                    cases hx : env.exportGoldOk
                    · exact absurd ⟨hsp, hx⟩ hge
                    · rfl
                  cases da
                  · simp [processBatch, hm, ht, hs, htl, hg, hsp, hes, heg,
                      mem_bronzeEffects]
                  · simp [processBatch, hm, ht, hs, htl, hg, hsp, hes, heg,
                      mem_bronzeEffects]
                · have hspf : env.saveParquet = false := by
                    cases hb : env.saveParquet
                    · rfl
                    · exact absurd hb hsp
                  cases da
                  · simp [processBatch, hm, ht, hs, htl, hg, hspf, mem_bronzeEffects]
                  · simp [processBatch, hm, ht, hs, htl, hg, hspf, mem_bronzeEffects]

/-- C2 counterexample: a fully successful gold cycle driven by
run_pipeline leaves the consumed message in the source, because
process_batch is invoked with delete_after_processing left at its
default false. -/
theorem C2_delete_counterexample :
    (run_pipeline_batch envAllOk Layer.gold).2 = Except.ok ⟨1, 1, 0, 0, 0, 0, 0⟩ ∧
    (0 : Nat) ∈ envAllOk.messages ∧
    Eff.deleteMsg 0 ∉ (run_pipeline_batch envAllOk Layer.gold).1 :=
  ⟨rfl, by decide, by decide⟩

/-- C2 (amended): a message is deleted only in a gold-terminal cycle in
which every stage and export succeeded and deletion was requested, and
then only after the silver and gold stages; with deletion requested a
fully successful gold cycle does delete every message of the batch; but
run_pipeline never requests deletion — it calls process_batch with
delete_after_processing at its default false — so the pipeline as wired
never deletes a message (delivery remains at-least-once). -/
theorem C2_delete_only_after_success (env : PipelineEnv) (target : Layer) (da : Bool) :
    (∀ h, Eff.deleteMsg h ∈ (processBatch env target da).1 →
      target = Layer.gold ∧ da = true ∧ h ∈ env.messages ∧
      env.silverOk = true ∧ env.goldOk = true ∧
      (env.saveParquet = true → env.exportSilverOk = true ∧ env.exportGoldOk = true) ∧
      (∃ s, (processBatch env target da).2 = Except.ok s) ∧
      ∃ t1, (processBatch env target da).1 = t1 ++ env.messages.map Eff.deleteMsg ∧
        Eff.silverRun ∈ t1 ∧ Eff.goldRun ∈ t1) ∧
    (target = Layer.gold → da = true → env.silverOk = true → env.goldOk = true →
      (env.saveParquet = true → env.exportSilverOk = true ∧ env.exportGoldOk = true) →
      ∀ h ∈ env.messages, Eff.deleteMsg h ∈ (processBatch env target da).1) ∧
    (∀ h, Eff.deleteMsg h ∉ (run_pipeline_batch env target).1) := by
  refine ⟨?_, ?_, ?_⟩
  · intro h hmem
    obtain ⟨htg, hda, hin, hs, hg, hx⟩ := (deleteMsg_mem_processBatch env target da h).mp hmem
    subst htg
    subst hda
    have hm : env.messages ≠ [] := List.ne_nil_of_mem hin
    have heq := processBatch_gold_success env true hm hs hg hx
    refine ⟨rfl, rfl, hin, hs, hg, hx, ⟨_, by rw [heq]⟩, ?_⟩
    refine ⟨bronzeEffects env ++ [Eff.silverRun] ++
      (if env.saveParquet then [Eff.silverExport] else []) ++ [Eff.goldRun] ++
      (if env.saveParquet then [Eff.goldExport] else []), ?_, by simp, by simp⟩
    rw [heq]
    simp
  · intro htg hda hs hg hx h hin
    exact (deleteMsg_mem_processBatch env target da h).mpr ⟨htg, hda, hin, hs, hg, hx⟩
  · intro h hmem
    have := (deleteMsg_mem_processBatch env target false h).mp hmem
    cases this.2.1

/-- C2 witness: the deletion theorem applied to a concrete fully
successful environment with deletion requested. -/
theorem C2_delete_only_after_success_witness :
    Eff.deleteMsg 3 ∈ (processBatch envAllOkExport Layer.gold true).1 ∧
    Eff.deleteMsg 7 ∈ (processBatch envAllOkExport Layer.gold true).1 :=
  ⟨(C2_delete_only_after_success envAllOkExport Layer.gold true).2.1 rfl rfl rfl rfl
      (fun _ => ⟨rfl, rfl⟩) 3 (by decide),
   (C2_delete_only_after_success envAllOkExport Layer.gold true).2.1 rfl rfl rfl rfl
      (fun _ => ⟨rfl, rfl⟩) 7 (by decide)⟩

/-- C9: receive_messages clamps the requested batch size to the SQS
maximum of 10 before the queue request, although the configured default
MAX_MESSAGES_PER_BATCH is 20; assuming the queue honors the requested
maximum, the returned list never holds more than 10 messages. -/
theorem C9_receive_at_most_ten {α β : Type} (sqs : Nat → List α) (parse1 : α → β)
    (m : Option Nat) (hq : ∀ n, (sqs n).length ≤ n) :
    (receive_messages sqs parse1 m).length ≤ 10 ∧
    requestedMaxMessages m = min (effectiveMaxMessages m) 10 ∧
    MAX_MESSAGES_PER_BATCH = 20 ∧ requestedMaxMessages none = 10 := by
  refine ⟨?_, rfl, rfl, rfl⟩
  have h1 : (receive_messages sqs parse1 m).length =
      (sqs (requestedMaxMessages m)).length := by
    simp [receive_messages]
  rw [h1]
  exact le_trans (hq _) (min_le_right _ 10)

/-- C9 witness: the clamp theorem applied to a queue that returns as many
messages as requested. -/
theorem C9_receive_at_most_ten_witness :
    (receive_messages (fun n => List.replicate n 0) (fun x : Nat => x) none).length ≤ 10 :=
  (C9_receive_at_most_ten (fun n => List.replicate n 0) (fun x => x) none
    (fun n => by simp)).1

/-- C10: table_count is total — a missing table or any store error is
mapped to zero by the bare except, so the result is always a
non-negative count; consequently the delta accounting of the silver and
gold transforms uses a zero baseline for a table that has never been
created. -/
theorem C10_table_count_total (store : String → Option Nat) (t : String) :
    (store t = none → table_count store t = 0) ∧
    (∀ n, store t = some n → table_count store t = n) ∧
    (0 : Int) ≤ (table_count store t : Int) ∧
    (∀ bf pre post, bf ≠ 0 → pre "silver_events" = none →
      (transform_to_silver bf pre post).events_inserted =
        (table_count post "silver_events" : Int)) ∧
    (∀ pre post, pre "fact_events" = none →
      (transform_to_gold pre post).fact_events_inserted =
        (table_count post "fact_events" : Int)) := by
  refine ⟨?_, ?_, Int.natCast_nonneg _, ?_, ?_⟩
  · intro h
    simp [table_count, h]
  · intro n h
    simp [table_count, h]
  · intro bf pre post hbf hpre
    simp [transform_to_silver, hbf, table_count, hpre]
  · intro pre post hpre
    simp [transform_to_gold, table_count, hpre]

/-- C10 witness: the totality theorem applied to an empty store and to a
delta over a table created during the run. -/
theorem C10_table_count_total_witness :
    table_count (fun _ => none) "silver_events" = 0 ∧
    (transform_to_silver 5 (fun _ => none) (fun _ => some 42)).events_inserted = 42 :=
  ⟨(C10_table_count_total (fun _ => none) "silver_events").1 rfl,
   by
     have h := (C10_table_count_total (fun _ => none) "silver_events").2.2.2.1 5
       (fun _ => none) (fun _ => some 42) (by decide) rfl
     simpa [table_count] using h⟩

end Pipeline
